import Mathlib

/-!
Shallow embedding of the oscilloscope waveform routine (`drawWaveform`) of
`src/app/prototypes/moog-synth/page.tsx`, together with theorems settling the
specification claims about it.

JS numbers are modelled as real numbers.  The JS remainder operator `%`
truncates toward zero, which we model by `jsMod`.  `Math.sin` is `Real.sin`,
`Math.sign` is `Real.sign`, `Math.abs` is `abs`, `Math.max` is `max`.
The `waveform` selector is a string, matching the switch on the TS string
union; the `default` branch of the switch is the final `else`.
-/

namespace MoogSynth

/-- JS `Math.trunc`-style truncation toward zero, as used by the `%` operator. -/
noncomputable def jsTrunc (x : ℝ) : ℤ :=
  if 0 ≤ x then ⌊x⌋ else ⌈x⌉

/-- The JS remainder `x % y = x - y * trunc (x / y)`. -/
noncomputable def jsMod (x y : ℝ) : ℝ :=
  x - y * (jsTrunc (x / y) : ℝ)

/-- Number of curve samples per frame: `const samples = 900`. -/
def samples : ℕ := 900

/-- Moving-average radius: `const windowSize = 6`. -/
def windowSize : ℕ := 6

/-- The per-frequency phase: `const t = (i / samples) * Math.PI * 4 + time * freq * 0.01`
(`samples` is the parameter `N` here). -/
noncomputable def phase (N i : ℕ) (time freq : ℝ) : ℝ :=
  ((i : ℝ) / (N : ℝ)) * Real.pi * 4 + time * freq * 0.01

/-- The `switch (waveform)` block producing one sample from a phase `t`:
sine is `Math.sin t`, square is `Math.sign (Math.sin t)`,
sawtooth is `2 * ((t / (2π)) % 1) - 1`,
triangle is `2 * |2 * ((t / (2π)) % 1) - 1| - 1`,
and the default branch is `Math.sin t`. -/
noncomputable def waveSample (waveform : String) (t : ℝ) : ℝ :=
  if waveform = "sine" then Real.sin t
  else if waveform = "square" then Real.sign (Real.sin t)
  else if waveform = "sawtooth" then 2 * jsMod (t / (2 * Real.pi)) 1 - 1
  else if waveform = "triangle" then 2 * |2 * jsMod (t / (2 * Real.pi)) 1 - 1| - 1
  else Real.sin t

/-- The mixed sample before filter attenuation: the loop accumulating
`y += sample` over `scopeFrequencies` followed by
`y /= Math.max(1, scopeFrequencies.length)`. -/
noncomputable def mixedSample (freqs : List ℝ) (waveform : String)
    (time : ℝ) (N i : ℕ) : ℝ :=
  (freqs.map (fun freq => waveSample waveform (phase N i time freq))).sum
    / max 1 (freqs.length : ℝ)

/-- `const filterEffect = Math.max(0, 1 - (filterCutoff / 5000))`. -/
noncomputable def filterEffect (filterCutoff : ℝ) : ℝ :=
  max 0 (1 - filterCutoff / 5000)

/-- The factor applied by `y *= (1 - filterEffect * 0.5)`. -/
noncomputable def filterMultiplier (filterCutoff : ℝ) : ℝ :=
  1 - filterEffect filterCutoff * 0.5

/-- One entry of the `raw` buffer: mixed sample times the filter factor. -/
noncomputable def rawSample (freqs : List ℝ) (waveform : String)
    (filterCutoff time : ℝ) (N i : ℕ) : ℝ :=
  mixedSample freqs waveform time N i * filterMultiplier filterCutoff

/-- The `raw` buffer, entries `raw[0] .. raw[N]`. -/
noncomputable def rawBuf (freqs : List ℝ) (waveform : String)
    (filterCutoff time : ℝ) (N : ℕ) : List ℝ :=
  (List.range (N + 1)).map (fun i => rawSample freqs waveform filterCutoff time N i)

/-- One entry of the `smoothed` buffer: the inner loop over
`k = -windowSize .. windowSize` accumulating `sum` and `count` for indices
`idx = i + k` with `0 ≤ idx ≤ N`, then `sum / Math.max(1, count)`.
The raw buffer is read through a total function on integer indices; the code
only ever reads indices inside `[0, N]`. -/
noncomputable def smoothedVal (rawv : ℤ → ℝ) (N : ℕ) (i : ℤ) : ℝ :=
  (∑ k in Finset.Icc (-(windowSize : ℤ)) (windowSize : ℤ),
      if 0 ≤ i + k ∧ i + k ≤ (N : ℤ) then rawv (i + k) else 0)
    / max 1
      ((((Finset.Icc (-(windowSize : ℤ)) (windowSize : ℤ)).filter
          (fun k => 0 ≤ i + k ∧ i + k ≤ (N : ℤ))).card : ℝ))

/-- The `smoothed` buffer, entries `smoothed[0] .. smoothed[N]`. -/
noncomputable def smoothedBuf (rawv : ℤ → ℝ) (N : ℕ) : List ℝ :=
  (List.range (N + 1)).map (fun (i : ℕ) => smoothedVal rawv N (i : ℤ))

/-- The set of in-range window indices `[i - windowSize, i + windowSize] ∩ [0, N]`,
used to state the clipped-mean property. -/
def clippedWindow (N : ℕ) (i : ℤ) : Finset ℤ :=
  (Finset.Icc (i - (windowSize : ℤ)) (i + (windowSize : ℤ))).filter
    (fun j => 0 ≤ j ∧ j ≤ (N : ℤ))

/-- The ternary at lines 77-78:
`activeNoteFrequencies.length > 0 ? activeNoteFrequencies : [osc1Freq]`. -/
def scopeFrequencies (activeNoteFrequencies : List ℝ) (osc1Freq : ℝ) : List ℝ :=
  if 0 < activeNoteFrequencies.length then activeNoteFrequencies else [osc1Freq]

/-- The full sampling-plus-smoothing pipeline from the frequency list actually
used for the scope: raw buffer addressed by integer index (clamped to ℕ, the
code only reads indices in `[0, N]`), then the moving average. -/
noncomputable def scopeSmoothed (freqs : List ℝ) (waveform : String)
    (filterCutoff time : ℝ) (N : ℕ) : List ℝ :=
  smoothedBuf (fun j => rawSample freqs waveform filterCutoff time N j.toNat) N

/-- Observable outcome of one invocation of the `drawWaveform` callback. -/
structure FrameResult where
  blankFill : Bool
  drewCurve : Bool
  curvePoints : List ℝ
  rescheduled : Bool

/-- One invocation of the `drawWaveform` callback.  If
`activeNoteFrequencies.length > 0` fails (`shouldVisualize` is false) the code
fills a flat `#1a1a1a` background and returns before requesting another
animation frame; otherwise it draws the smoothed curve computed from
`scopeFrequencies` and calls `requestAnimationFrame(drawWaveform)` at the end. -/
noncomputable def drawWaveform (activeNoteFrequencies : List ℝ) (osc1Freq : ℝ)
    (waveform : String) (filterCutoff time : ℝ) : FrameResult :=
  if 0 < activeNoteFrequencies.length then
    { blankFill := false
      drewCurve := true
      curvePoints :=
        scopeSmoothed (scopeFrequencies activeNoteFrequencies osc1Freq)
          waveform filterCutoff time samples
      rescheduled := true }
  else
    { blankFill := true
      drewCurve := false
      curvePoints := []
      rescheduled := false }

/-- `const toCanvasY = (y) => (canvas.height / 2) + (y * (canvas.height / 2) * 0.8)`. -/
noncomputable def toCanvasY (height y : ℝ) : ℝ :=
  height / 2 + y * (height / 2) * 0.8

/- ------------------------------------------------------------------ -/
/- Helper lemmas                                                       -/
/- ------------------------------------------------------------------ -/

lemma scopeFrequencies_nil (osc1Freq : ℝ) :
    scopeFrequencies [] osc1Freq = [osc1Freq] := rfl

lemma scopeFrequencies_of_ne_nil (l : List ℝ) (osc1Freq : ℝ) (h : l ≠ []) :
    scopeFrequencies l osc1Freq = l := by
  unfold scopeFrequencies
  rw [if_pos (List.length_pos.mpr h)]

lemma jsMod_one_eq_fract (x : ℝ) (hx : 0 ≤ x) : jsMod x 1 = Int.fract x := by
  unfold jsMod jsTrunc
  rw [div_one, if_pos hx, one_mul, Int.self_sub_floor]

lemma jsMod_one_nonneg (x : ℝ) (hx : 0 ≤ x) : 0 ≤ jsMod x 1 := by
  rw [jsMod_one_eq_fract x hx]; exact Int.fract_nonneg x

lemma jsMod_one_lt_one (x : ℝ) (hx : 0 ≤ x) : jsMod x 1 < 1 := by
  rw [jsMod_one_eq_fract x hx]; exact Int.fract_lt_one x

/-- Every waveform branch yields a sample in `[-1, 1]` at a nonnegative phase. -/
lemma waveSample_mem (w : String) (t : ℝ) (ht : 0 ≤ t) :
    -1 ≤ waveSample w t ∧ waveSample w t ≤ 1 := by
  have hm : 0 ≤ t / (2 * Real.pi) :=
    div_nonneg ht (by positivity)
  have h0 := jsMod_one_nonneg _ hm
  have h1 := jsMod_one_lt_one _ hm
  unfold waveSample
  split_ifs
  · exact ⟨Real.neg_one_le_sin t, Real.sin_le_one t⟩
  · rcases Real.sign_apply_eq (Real.sin t) with hs | hs | hs <;> rw [hs] <;> norm_num
  · constructor <;> nlinarith
  · have habs : |2 * jsMod (t / (2 * Real.pi)) 1 - 1| ≤ 1 :=
      abs_le.mpr ⟨by nlinarith, by nlinarith⟩
    have habs0 : 0 ≤ |2 * jsMod (t / (2 * Real.pi)) 1 - 1| := abs_nonneg _
    constructor <;> nlinarith
  · exact ⟨Real.neg_one_le_sin t, Real.sin_le_one t⟩

lemma phase_nonneg (N i : ℕ) (time freq : ℝ) (ht : 0 ≤ time) (hf : 0 ≤ freq) :
    0 ≤ phase N i time freq := by
  unfold phase
  have h1 : (0 : ℝ) ≤ ((i : ℝ) / (N : ℝ)) * Real.pi * 4 := by positivity
  have h2 : (0 : ℝ) ≤ time * freq * 0.01 := by positivity
  linarith

lemma list_sum_abs_le_length (l : List ℝ) (h : ∀ x ∈ l, -1 ≤ x ∧ x ≤ 1) :
    |l.sum| ≤ (l.length : ℝ) := by
  induction l with
  | nil => simp
  | cons a l ih =>
    have ha : |a| ≤ 1 := abs_le.mpr (h a (List.mem_cons_self a l))
    have hl : |l.sum| ≤ (l.length : ℝ) :=
      ih (fun x hx => h x (List.mem_cons_of_mem a hx))
    calc |(a :: l).sum| = |a + l.sum| := by rw [List.sum_cons]
      _ ≤ |a| + |l.sum| := abs_add _ _
      _ ≤ 1 + (l.length : ℝ) := by linarith
      _ = ((a :: l).length : ℝ) := by
          rw [List.length_cons]
          push_cast
          ring

/- ------------------------------------------------------------------ -/
/- Claim theorems                                                      -/
/- ------------------------------------------------------------------ -/

/-- Claim C4, counterexample: the claim asserts the multiplier is exactly 0.5
for every `filterCutoff ≤ 0`, but at `filterCutoff = -5000` the code computes
`filterEffect = 2` and hence multiplier `0`, not `0.5`. -/
theorem claim4_negative_cutoff_counterexample :
    filterMultiplier (-5000) = 0 ∧ filterMultiplier (-5000) ≠ 0.5 := by
  have h : filterMultiplier (-5000) = 0 := by
    unfold filterMultiplier filterEffect
    rw [max_eq_right (by norm_num : (0:ℝ) ≤ 1 - -5000 / 5000)]
    norm_num
  exact ⟨h, by rw [h]; norm_num⟩

/-- Claim C4 (amended): for every `filterCutoff` the multiplier applied to each
raw sample equals `1 - max 0 (1 - filterCutoff/5000) * 0.5`; for every
`filterCutoff ≥ 5000` it is exactly 1, and at `filterCutoff = 0` it is exactly
0.5. -/
theorem claim4_filter_multiplier (freqs : List ℝ) (w : String)
    (filterCutoff time : ℝ) (N i : ℕ) :
    rawSample freqs w filterCutoff time N i
        = mixedSample freqs w time N i * (1 - max 0 (1 - filterCutoff / 5000) * 0.5)
      ∧ (5000 ≤ filterCutoff → filterMultiplier filterCutoff = 1)
      ∧ filterMultiplier 0 = 0.5 := by
  refine ⟨rfl, fun h5 => ?_, ?_⟩
  · unfold filterMultiplier filterEffect
    rw [max_eq_left (by linarith : 1 - filterCutoff / 5000 ≤ 0)]
    norm_num
  · unfold filterMultiplier filterEffect
    rw [max_eq_right (by norm_num : (0:ℝ) ≤ 1 - 0 / 5000)]
    norm_num

/-- Witness for C4: at `filterCutoff = 6000 ≥ 5000` the multiplier is 1. -/
theorem claim4_filter_multiplier_witness :
    (5000 : ℝ) ≤ 6000 ∧ filterMultiplier 6000 = 1 :=
  ⟨by norm_num,
   (claim4_filter_multiplier [] "sine" 6000 0 900 0).2.1 (by norm_num)⟩

/-- Claim C6: `toCanvasY` maps a sample `s` to `h/2 + s*(h/2)*0.8`, and when
every sample lies in `[-1, 1]` the plotted coordinate lies in `[0.1*h, 0.9*h]`. -/
theorem claim6_to_canvas_y (h s : ℝ) :
    toCanvasY h s = h / 2 + s * (h / 2) * 0.8
      ∧ (0 ≤ h → -1 ≤ s → s ≤ 1 →
          0.1 * h ≤ toCanvasY h s ∧ toCanvasY h s ≤ 0.9 * h) := by
  refine ⟨rfl, fun hh hs1 hs2 => ⟨?_, ?_⟩⟩ <;>
    unfold toCanvasY <;> nlinarith [mul_nonneg hh (sub_nonneg.mpr hs2),
      mul_nonneg hh (by linarith : (0:ℝ) ≤ s + 1)]

/-- Witness for C6: at `h = 180`, `s = 1` the plotted coordinate is inside
`[18, 162]`. -/
theorem claim6_to_canvas_y_witness :
    (0 : ℝ) ≤ 180 ∧ (-1 : ℝ) ≤ 1 ∧ (1 : ℝ) ≤ 1 ∧
      (0.1 * 180 ≤ toCanvasY 180 1 ∧ toCanvasY 180 1 ≤ 0.9 * 180) :=
  ⟨by norm_num, by norm_num, le_refl 1,
   (claim6_to_canvas_y 180 1).2 (by norm_num) (by norm_num) (le_refl 1)⟩

/-- Claim C7: on the square branch, every phase `t` with `sin t = 0` yields the
literal sample 0, not 1 or -1. -/
theorem claim7_square_zero_crossing (t : ℝ) (h : Real.sin t = 0) :
    waveSample "square" t = 0 := by
  unfold waveSample
  rw [if_neg (by decide), if_pos rfl, h, Real.sign_zero]

/-- Witness for C7: at `clockSeconds = 0` and `i = 0` the phase is 0,
`sin 0 = 0`, and the square sample is 0. -/
theorem claim7_square_zero_crossing_witness :
    phase 900 0 0 440 = 0 ∧ Real.sin (phase 900 0 0 440) = 0 ∧
      waveSample "square" (phase 900 0 0 440) = 0 := by
  have hp : phase 900 0 0 440 = 0 := by
    unfold phase
    norm_num
  have hs : Real.sin (phase 900 0 0 440) = 0 := by rw [hp, Real.sin_zero]
  exact ⟨hp, hs, claim7_square_zero_crossing (phase 900 0 0 440) hs⟩

/-- Claim C8: any waveform string outside the four recognized ones takes the
default branch, which computes the sine sample `sin t`. -/
theorem claim8_default_is_sine (w : String) (t : ℝ)
    (h1 : w ≠ "sine") (h2 : w ≠ "square") (h3 : w ≠ "sawtooth")
    (h4 : w ≠ "triangle") :
    waveSample w t = Real.sin t := by
  unfold waveSample
  rw [if_neg h1, if_neg h2, if_neg h3, if_neg h4]

/-- Witness for C8: the unrecognized waveform string "noise" synthesizes the
sine sample. -/
theorem claim8_default_is_sine_witness :
    ("noise" ≠ "sine") ∧ ("noise" ≠ "square") ∧ ("noise" ≠ "sawtooth") ∧
      ("noise" ≠ "triangle") ∧ waveSample "noise" 0 = Real.sin 0 :=
  ⟨by decide, by decide, by decide, by decide,
   claim8_default_is_sine "noise" 0 (by decide) (by decide) (by decide) (by decide)⟩

/-- Claim C3: for every non-empty list of nonnegative frequencies, nonnegative
clock value, any waveform string, and any index `i ≤ N`, the mixed sample
before filter attenuation lies in `[-1, 1]`. -/
theorem claim3_mixed_sample_bounded (freqs : List ℝ) (w : String) (time : ℝ)
    (N i : ℕ) (hne : freqs ≠ []) (hf : ∀ f ∈ freqs, 0 ≤ f) (ht : 0 ≤ time)
    (hi : i ≤ N) :
    -1 ≤ mixedSample freqs w time N i ∧ mixedSample freqs w time N i ≤ 1 := by
  have hb : ∀ x ∈ freqs.map (fun freq => waveSample w (phase N i time freq)),
      -1 ≤ x ∧ x ≤ 1 := by
    intro x hx
    rcases List.mem_map.mp hx with ⟨f, hfm, rfl⟩
    exact waveSample_mem w _ (phase_nonneg N i time f ht (hf f hfm))
  have hsum := list_sum_abs_le_length _ hb
  rw [List.length_map] at hsum
  have hM1 : (1 : ℝ) ≤ max 1 (freqs.length : ℝ) := le_max_left _ _
  have hM0 : (0 : ℝ) < max 1 (freqs.length : ℝ) := lt_of_lt_of_le one_pos hM1
  have hlen : (freqs.length : ℝ) ≤ max 1 (freqs.length : ℝ) := le_max_right _ _
  have habs : |mixedSample freqs w time N i| ≤ 1 := by
    unfold mixedSample
    rw [abs_div, abs_of_pos hM0]
    exact div_le_one_of_le₀ (le_trans hsum hlen) hM0.le
  exact abs_le.mp habs

/-- Witness for C3: one 440 Hz sine frequency at clock 0, index 0 of 900. -/
theorem claim3_mixed_sample_bounded_witness :
    ([(440 : ℝ)] ≠ []) ∧ (∀ f ∈ [(440 : ℝ)], 0 ≤ f) ∧ ((0 : ℝ) ≤ 0) ∧
      ((0 : ℕ) ≤ 900) ∧
      (-1 ≤ mixedSample [440] "sine" 0 900 0 ∧
        mixedSample [440] "sine" 0 900 0 ≤ 1) :=
  ⟨by simp, by norm_num, le_refl 0, by norm_num,
   claim3_mixed_sample_bounded [440] "sine" 0 900 0 (by simp) (by norm_num)
     (le_refl 0) (by norm_num)⟩

/-- Claim C5: every smoothed entry at an in-range index is the arithmetic mean
of the raw entries over the window `[i - w, i + w]` clipped to `[0, N]`
(`w = windowSize = 6`), and the smoothed buffer has length `N + 1`. -/
theorem claim5_smoothing_clipped_mean (rawv : ℤ → ℝ) (N : ℕ) (i : ℤ)
    (h0 : 0 ≤ i) (hN : i ≤ (N : ℤ)) :
    smoothedVal rawv N i =
        (∑ j in clippedWindow N i, rawv j) / ((clippedWindow N i).card : ℝ)
      ∧ (smoothedBuf rawv N).length = N + 1 := by
  constructor
  · set F := (Finset.Icc (-(windowSize : ℤ)) (windowSize : ℤ)).filter
      (fun k => 0 ≤ i + k ∧ i + k ≤ (N : ℤ)) with hF
    have himg : clippedWindow N i = F.image (fun k => i + k) := by
      ext j
      simp only [clippedWindow, hF, Finset.mem_image, Finset.mem_filter,
        Finset.mem_Icc]
      constructor
      · rintro ⟨⟨hj1, hj2⟩, hj3, hj4⟩
        exact ⟨j - i, ⟨⟨by omega, by omega⟩, by omega, by omega⟩, by omega⟩
      · rintro ⟨k, ⟨⟨hk1, hk2⟩, hk3, hk4⟩, rfl⟩
        exact ⟨⟨by omega, by omega⟩, hk3, hk4⟩
    have hsum : ∑ j in F.image (fun k => i + k), rawv j
        = ∑ k in F, rawv (i + k) :=
      Finset.sum_image (fun a _ b _ h => by exact add_left_cancel h)
    have hcard : (F.image (fun k => i + k)).card = F.card :=
      Finset.card_image_of_injOn (fun a _ b _ h => by exact add_left_cancel h)
    have hmem : (0 : ℤ) ∈ F := by
      simp only [hF, Finset.mem_filter, Finset.mem_Icc, windowSize]
      omega
    have hpos : 0 < F.card := Finset.card_pos.mpr ⟨0, hmem⟩
    have hmax : max 1 ((F.card : ℝ)) = (F.card : ℝ) :=
      max_eq_right (by exact_mod_cast hpos)
    unfold smoothedVal
    rw [← Finset.sum_filter, ← hF, hmax, himg, hsum, hcard]
  · unfold smoothedBuf
    rw [List.length_map, List.length_range]

/-- Witness for C5: the constant-one raw buffer, `N = 900`, `i = 0`. -/
theorem claim5_smoothing_clipped_mean_witness :
    ((0 : ℤ) ≤ 0) ∧ ((0 : ℤ) ≤ ((900 : ℕ) : ℤ)) ∧
      (smoothedVal (fun _ => 1) 900 0 =
          (∑ j in clippedWindow 900 0, (fun (_ : ℤ) => (1 : ℝ)) j)
            / ((clippedWindow 900 0).card : ℝ)
        ∧ (smoothedBuf (fun _ => (1 : ℝ)) 900).length = 900 + 1) :=
  ⟨le_refl 0, by norm_num,
   claim5_smoothing_clipped_mean (fun _ => 1) 900 0 (le_refl 0) (by norm_num)⟩

/-- Claim C1, counterexample: on a tick where the active frequency set is
empty, the callback fills the flat `#1a1a1a` background and returns without
drawing any waveform curve, so the fallback frequency is not substituted and
no curve is drawn, contrary to the claim. -/
theorem claim1_empty_tick_counterexample :
    (drawWaveform [] 440 "sine" 1000 0).drewCurve = false ∧
      (drawWaveform [] 440 "sine" 1000 0).blankFill = true :=
  ⟨rfl, rfl⟩

/-- Claim C1 (amended): on every render tick on which the active frequency set
is empty the renderer fills the surface with a flat background and draws no
curve; the fallback substitution (`osc1Freq`) belongs to the curve path, which
is reached only when the active set is non-empty, so it is never exercised. -/
theorem claim1_empty_tick_blank (osc1Freq : ℝ) (w : String)
    (filterCutoff time : ℝ) :
    (drawWaveform [] osc1Freq w filterCutoff time).blankFill = true ∧
      (drawWaveform [] osc1Freq w filterCutoff time).drewCurve = false :=
  ⟨rfl, rfl⟩

/-- Claim C2, counterexample: an uncancelled invocation of the callback on an
idle tick (no active note) returns early and does not request the next
animation frame, contrary to the claim that every uncancelled invocation
reschedules regardless of note activity. -/
theorem claim2_idle_tick_counterexample :
    (drawWaveform [] 220 "sawtooth" 500 1).rescheduled = false := rfl

/-- Claim C2 (amended): an invocation of the draw callback requests exactly one
next refresh callback iff at least one note is active; on the idle branch it
returns early, after the background fill, without rescheduling. -/
theorem claim2_reschedule_iff_active (active : List ℝ) (osc1Freq : ℝ)
    (w : String) (filterCutoff time : ℝ) :
    (drawWaveform active osc1Freq w filterCutoff time).rescheduled = true
      ↔ active ≠ [] := by
  unfold drawWaveform
  rcases active with _ | ⟨a, l⟩ <;> simp

/-- Witness for C2: with one active note the callback reschedules. -/
theorem claim2_reschedule_iff_active_witness :
    (drawWaveform [261.63] 440 "sine" 1000 2).rescheduled = true :=
  (claim2_reschedule_iff_active [261.63] 440 "sine" 1000 2).mpr (by simp)

/-- Claim C9: sample synthesis with an empty active set and fallback `f`
produces a raw buffer identical to sample synthesis with active set `[f]`
(whatever fallback the second run carries), for every waveform, cutoff, clock
and buffer size. -/
theorem claim9_fallback_substitution_exact (f g : ℝ) (w : String)
    (filterCutoff time : ℝ) (N : ℕ) :
    rawBuf (scopeFrequencies [] f) w filterCutoff time N
      = rawBuf (scopeFrequencies [f] g) w filterCutoff time N := by
  rw [scopeFrequencies_nil, scopeFrequencies_of_ne_nil [f] g (by simp)]

/-- Claim C10: when the active set is non-empty, the raw buffer, the smoothed
buffer, and the whole frame result do not depend on the fallback frequency. -/
theorem claim10_fallback_noninterference (active : List ℝ) (f1 f2 : ℝ)
    (w : String) (filterCutoff time : ℝ) (N : ℕ) (h : active ≠ []) :
    rawBuf (scopeFrequencies active f1) w filterCutoff time N
        = rawBuf (scopeFrequencies active f2) w filterCutoff time N
      ∧ scopeSmoothed (scopeFrequencies active f1) w filterCutoff time N
        = scopeSmoothed (scopeFrequencies active f2) w filterCutoff time N
      ∧ drawWaveform active f1 w filterCutoff time
        = drawWaveform active f2 w filterCutoff time := by
  have h1 := scopeFrequencies_of_ne_nil active f1 h
  have h2 := scopeFrequencies_of_ne_nil active f2 h
  refine ⟨by rw [h1, h2], by rw [h1, h2], ?_⟩
  unfold drawWaveform
  rw [if_pos (List.length_pos.mpr h), if_pos (List.length_pos.mpr h), h1, h2]

/-- Witness for C10: one active 440 Hz note, fallbacks 20 and 2000. -/
theorem claim10_fallback_noninterference_witness :
    ([(440 : ℝ)] ≠ []) ∧
      (rawBuf (scopeFrequencies [440] 20) "sine" 1000 5 900
          = rawBuf (scopeFrequencies [440] 2000) "sine" 1000 5 900
        ∧ scopeSmoothed (scopeFrequencies [440] 20) "sine" 1000 5 900
          = scopeSmoothed (scopeFrequencies [440] 2000) "sine" 1000 5 900
        ∧ drawWaveform [440] 20 "sine" 1000 5
          = drawWaveform [440] 2000 "sine" 1000 5) :=
  ⟨by simp,
   claim10_fallback_noninterference [440] 20 2000 "sine" 1000 5 900 (by simp)⟩

end MoogSynth
